import Mathlib

/-!
Shallow embedding of the persistence-and-consistency core of the `trailer`
repository (`src/db.ts`, lines 1-411).  Machine integers are modelled as `Nat`
with explicit reduction modulo `2 ^ 32` where the source works on 32-bit
words; fallible operations return `Except`; the single shared database
connection is modelled by passing the database state explicitly.
-/

namespace Trailer

/-! ## CredentialHasher: `hashPassword` / `verifyPassword` (db.ts 12-27)

`hashPassword` computes `crypto.subtle.digest("SHA-256", TextEncoder().encode(password))`
and renders it as lowercase hex.  SHA-256 is embedded in full (FIPS 180-4)
over byte lists, with 32-bit words as `Nat` reduced mod `2 ^ 32`. -/

/-- Reduce to a 32-bit word. -/
def w32 (n : Nat) : Nat := n % 2 ^ 32

/-- Right rotation of a 32-bit word (input assumed below `2 ^ 32`). -/
def rotr (n x : Nat) : Nat := w32 ((x >>> n) ||| (x <<< (32 - n)))

/-- Bitwise complement on 32 bits. -/
def compl32 (x : Nat) : Nat := x ^^^ 0xffffffff

def smallSigma0 (x : Nat) : Nat := (rotr 7 x) ^^^ (rotr 18 x) ^^^ (x >>> 3)

def smallSigma1 (x : Nat) : Nat := (rotr 17 x) ^^^ (rotr 19 x) ^^^ (x >>> 10)

def bigSigma0 (x : Nat) : Nat := (rotr 2 x) ^^^ (rotr 13 x) ^^^ (rotr 22 x)

def bigSigma1 (x : Nat) : Nat := (rotr 6 x) ^^^ (rotr 11 x) ^^^ (rotr 25 x)

def chF (x y z : Nat) : Nat := (x &&& y) ^^^ (compl32 x &&& z)

def majF (x y z : Nat) : Nat := (x &&& y) ^^^ (x &&& z) ^^^ (y &&& z)

/-- The 64 SHA-256 round constants (the first 32 fractional bits of the cube
roots of the first 64 primes), written in decimal. -/
def sha256K : List Nat :=
  [1116352408, 1899447441, 3049323471, 3921009573, 961987163,
   1508970993, 2453635748, 2870763221, 3624381080, 310598401,
   607225278, 1426881987, 1925078388, 2162078206, 2614888103,
   3248222580, 3835390401, 4022224774, 264347078, 604807628,
   770255983, 1249150122, 1555081692, 1996064986, 2554220882,
   2821834349, 2952996808, 3210313671, 3336571891, 3584528711,
   113926993, 338241895, 666307205, 773529912, 1294757372,
   1396182291, 1695183700, 1986661051, 2177026350, 2456956037,
   2730485921, 2820302411, 3259730800, 3345764771, 3516065817,
   3600352804, 4094571909, 275423344, 430227734, 506948616,
   659060556, 883997877, 958139571, 1322822218, 1537002063,
   1747873779, 1955562222, 2024104815, 2227730452, 2361852424,
   2428436474, 2756734187, 3204031479, 3329325298]

/-- The SHA-256 initial hash value (the first 32 fractional bits of the
square roots of the first 8 primes), written in decimal. -/
def sha256H0 : List Nat :=
  [1779033703, 3144134277, 1013904242, 2773480762,
   1359893119, 2600822924, 528734635, 1541459225]

/-- Big-endian byte rendering: the first argument is the byte count. -/
def bytesBE : Nat → Nat → List Nat
  | 0, _ => []
  | k + 1, v => bytesBE k (v / 256) ++ [v % 256]

/-- Padding of the SHA-256 message: append `0x80`, zero bytes up to 56 mod 64, then
the 64-bit big-endian bit length. -/
def sha256Pad (msg : List Nat) : List Nat :=
  msg ++ [0x80] ++ List.replicate ((55 + 64 - msg.length % 64) % 64) 0
      ++ bytesBE 8 (8 * msg.length)

/-- Pack bytes into 32-bit big-endian words. -/
def toWords : List Nat → List Nat
  | a :: b :: c :: d :: rest => (a * 2 ^ 24 + b * 2 ^ 16 + c * 2 ^ 8 + d) :: toWords rest
  | _ => []

/-- Extend the 16 block words to the 64-entry message schedule. -/
def msgSchedule (block : List Nat) : List Nat :=
  (List.range 48).foldl
    (fun w _ =>
      w ++ [w32 (smallSigma1 (w.getD (w.length - 2) 0) + w.getD (w.length - 7) 0
            + smallSigma0 (w.getD (w.length - 15) 0) + w.getD (w.length - 16) 0)])
    block

/-- One round of the SHA-256 compression function. -/
def compressStep (st : List Nat) (kw : Nat × Nat) : List Nat :=
  match st with
  | [a, b, c, d, e, f, g, h] =>
    let t1 := w32 (h + bigSigma1 e + chF e f g + kw.1 + kw.2)
    let t2 := w32 (bigSigma0 a + majF a b c)
    [w32 (t1 + t2), a, b, c, w32 (d + t1), e, f, g]
  | other => other

/-- Process one 64-byte block, updating the eight hash words. -/
def processBlock (hs : List Nat) (block : List Nat) : List Nat :=
  let st := (sha256K.zip (msgSchedule (toWords block))).foldl compressStep hs
  (hs.zip st).map (fun p => w32 (p.1 + p.2))

/-- Split a byte list into 64-byte chunks (fuel-based structural recursion;
`fuel = l.length` suffices since each step consumes at least one byte). -/
def chunks64Aux : Nat → List Nat → List (List Nat)
  | 0, _ => []
  | _, [] => []
  | fuel + 1, l => l.take 64 :: chunks64Aux fuel (l.drop 64)

/-- Split a byte list into 64-byte chunks. -/
def chunks64 (l : List Nat) : List (List Nat) := chunks64Aux l.length l

def hexDigit (n : Nat) : Char :=
  if n < 10 then Char.ofNat (48 + n) else Char.ofNat (87 + n)

/-- Hex rendering of one byte: two lowercase hex digits, zero-padded, as
produced by toString(16) with padStart. -/
def byteToHex (b : Nat) : String :=
  String.mk [hexDigit (b / 16), hexDigit (b % 16)]

/-- Digest of a byte list under SHA-256, as lowercase hex. -/
def sha256Hex (msg : List Nat) : String :=
  let digest := (chunks64 (sha256Pad msg)).foldl processBlock sha256H0
  String.join (((digest.map (fun wd => bytesBE 4 wd)).flatten).map byteToHex)

/-- Encoding of one character in UTF-8 (what TextEncoder emits per code
point). -/
def encodeUtf8Char (c : Char) : List Nat :=
  let n := c.toNat
  if n < 0x80 then [n]
  else if n < 0x800 then
    [0xc0 ||| (n >>> 6), 0x80 ||| (n &&& 0x3f)]
  else if n < 0x10000 then
    [0xe0 ||| (n >>> 12), 0x80 ||| ((n >>> 6) &&& 0x3f), 0x80 ||| (n &&& 0x3f)]
  else
    [0xf0 ||| (n >>> 18), 0x80 ||| ((n >>> 12) &&& 0x3f),
     0x80 ||| ((n >>> 6) &&& 0x3f), 0x80 ||| (n &&& 0x3f)]

/-- Bytes of the UTF-8 encoding of a string, as TextEncoder produces. -/
def utf8Bytes (s : String) : List Nat :=
  (s.data.map encodeUtf8Char).flatten

/-- Hash of a password, db.ts 12-19: SHA-256 of its UTF-8 encoding, hex-encoded.
The digest is a function of the password alone: no salt, no work factor. -/
def hashPassword (password : String) : String :=
  sha256Hex (utf8Bytes password)

/-- Verification, db.ts 24-27: recompute the hash and compare. -/
def verifyPassword (password hash : String) : Bool :=
  hashPassword password == hash

/-! ## Data model (the four tables created by `initDb`, db.ts 60-97)

Timestamp columns (`submitted_at`, `approved_at`, `created_at`, filled by the
CURRENT_TIMESTAMP of the store) are modelled as `Nat` parameters `dbNow` passed
to each operation. -/

inductive Status where
  | pending
  | approved
  | rejected
deriving DecidableEq, Repr

/-- A row of `submissions` (id BIGINT PRIMARY KEY, imdb_id, acfun_url,
submitted_at, status defaulting to pending). -/
structure Submission where
  id : Nat
  imdb_id : String
  acfun_url : String
  submitted_at : Nat
  status : Status
deriving DecidableEq, Repr

/-- A row of `trailers` (imdb_id TEXT PRIMARY KEY, acfun_url, approved_at,
reviewer). -/
structure TrailerRow where
  imdb_id : String
  acfun_url : String
  approved_at : Nat
  reviewer : String
deriving DecidableEq, Repr

/-- A row of `admins` (username TEXT PRIMARY KEY, password_hash, role,
created_at). -/
structure AdminRow where
  username : String
  password_hash : String
  role : String
  created_at : Nat
deriving DecidableEq, Repr

/-- The database state: the three tables the verified operations touch
(`system_heartbeat` is liveness-only and carries no claim-relevant data). -/
structure DB where
  submissions : List Submission
  trailers : List TrailerRow
  admins : List AdminRow
deriving DecidableEq, Repr

def emptyDB : DB := ⟨[], [], []⟩

/-- A store-level statement failure. -/
inductive DbError where
  | primaryKeyConflict
deriving DecidableEq, Repr

/-! ## SubmissionQueue (db.ts 187-238) -/

/-- Count of pending rows, db.ts 187-193: SELECT COUNT over submissions
with status pending. -/
def getPendingCount (db : DB) : Nat :=
  (db.submissions.filter (fun s => s.status == .pending)).length

/-- Insert into submissions with columns id, imdb_id and acfun_url:
rejected by the store when the primary key `id` already exists, otherwise the
row is appended with the defaults `submitted_at = CURRENT_TIMESTAMP`,
status pending. -/
def insertSubmission (db : DB) (id : Nat) (imdbId acfunUrl : String) (dbNow : Nat) :
    Except DbError DB :=
  if db.submissions.any (fun s => s.id == id) then .error .primaryKeyConflict
  else .ok { db with submissions := db.submissions ++ [⟨id, imdbId, acfunUrl, dbNow, .pending⟩] }

/-- The errors `submitEntry` throws. -/
inductive SubmitError where
  /-- Message: Pending submissions limit reached (400). Try again later. -/
  | capacityExceeded
  /-- Message: Retry failed — the single retry insert also failed. -/
  | retryFailed
deriving DecidableEq, Repr

/-- Intake of a proposal, db.ts 198-238.  Here `now` is the Date.now
clock value and `rand` is the value of
`Math.random()` scaled, i.e. `rand % 1000` equals the floor of Math.random times 1000.
Checks the pending cap, inserts with `id = now`, and on a primary-key
conflict retries once with `id = now + rand % 1000` before surfacing the
failure. -/
def submitEntry (db : DB) (now rand dbNow : Nat) (imdbId acfunUrl : String) :
    Except SubmitError (DB × Nat) :=
  let pendingCount := getPendingCount db
  if pendingCount ≥ 400 then .error .capacityExceeded
  else
    let id := now
    match insertSubmission db id imdbId acfunUrl dbNow with
    | .ok db1 => .ok (db1, id)
    | .error .primaryKeyConflict =>
      let newId := now + rand % 1000
      match insertSubmission db newId imdbId acfunUrl dbNow with
      | .ok db1 => .ok (db1, newId)
      | .error .primaryKeyConflict => .error .retryFailed

/-! ## AdminDirectory (db.ts 112-133, 243-301) -/

/-- A JavaScript runtime exception. -/
inductive JsError where
  /-- Reading a property of `undefined`. -/
  | typeError
deriving DecidableEq, Repr

/-- The object `verifyAdmin` resolves with; `none` models a field that is
absent or `undefined`. -/
structure VerifyResult where
  valid : Bool
  role : Option String
  username : Option String
deriving DecidableEq, Repr

/-- Verification of an admin login, db.ts 243-265: select username,
password_hash and role from admins by username; an empty result gives a
plain invalid result.  Otherwise the stored
hash is compared.  In the result object the source computes
`role: valid ? row.rows[0].role : undefined`: `row` is already the fetched
row and has no `rows` property, so when `valid` is true the index into
`row.rows` (i.e. `undefined[0]`) throws a TypeError before the object is
built; when `valid` is false the ternary yields `undefined`. -/
def verifyAdmin (db : DB) (username password : String) :
    Except JsError VerifyResult :=
  match db.admins.find? (fun a => a.username == username) with
  | none => .ok { valid := false, role := none, username := none }
  | some row =>
    let valid := verifyPassword password row.password_hash
    if valid then .error .typeError
    else .ok { valid := valid, role := none, username := none }

/-- The errors `addSecondaryAdmin` throws. -/
inductive AdminError where
  /-- Message: Only super admins can add new administrators. -/
  | forbidden
  /-- Message: Username already exists. -/
  | conflict
deriving DecidableEq, Repr

/-- Creation of a secondary admin, db.ts 270-301: require the stored role
of the actor to be super, require `newUsername` to be absent, then insert
the new admin with the hashed password and role secondary. -/
def addSecondaryAdmin (db : DB) (superAdminUsername newUsername newPassword : String)
    (dbNow : Nat) : Except AdminError DB :=
  match db.admins.find? (fun a => a.username == superAdminUsername) with
  | none => .error .forbidden
  | some actor =>
    if actor.role != "super" then .error .forbidden
    else if db.admins.any (fun a => a.username == newUsername) then .error .conflict
    else .ok { db with
      admins := db.admins ++ [⟨newUsername, hashPassword newPassword, "secondary", dbNow⟩] }

/-- Bootstrap, db.ts 112-133 (inside initDb): create the configured super admin if its
username is absent, otherwise leave the table unchanged. -/
def bootstrapAdmin (db : DB) (username password : String) (dbNow : Nat) : DB :=
  if db.admins.any (fun a => a.username == username) then db
  else { db with admins := db.admins ++ [⟨username, hashPassword password, "super", dbNow⟩] }

/-! ## ModerationTransaction (db.ts 317-362)

`reviewSubmission` is the only multi-statement transaction.  A connection is
modelled as the committed database plus the working state the open
transaction sees: `BEGIN` starts the working state from the committed one,
each in-transaction statement rewrites only the working state, `COMMIT`
installs it, and `ROLLBACK` discards it.  A failure oracle `fail` says which
in-transaction statements throw. -/

structure Conn where
  committed : DB
  current : DB
deriving DecidableEq, Repr

def txBegin (c : Conn) : Conn := { c with current := c.committed }

def txCommit (c : Conn) : Conn := { c with committed := c.current }

def txRollback (c : Conn) : Conn := { c with current := c.committed }

/-- The statements inside the review transaction that may fail. -/
inductive TxStep where
  /-- Statement updating the submission status by id. -/
  | updateStep
  /-- Statement upserting into trailers on the imdb_id key. -/
  | upsertStep
  /-- Commit statement of the transaction. -/
  | commitStep
deriving DecidableEq, Repr

/-- Update of the submission status by id (every matching row). -/
def updateStatus (subs : List Submission) (id : Nat) (st : Status) : List Submission :=
  subs.map (fun s => if s.id == id then { s with status := st } else s)

/-- Upsert into trailers: insert the new row, or on a conflict of the
imdb_id key update acfun_url, reviewer and approved_at in place. -/
def upsertTrailer (ts : List TrailerRow) (imdbId acfunUrl reviewer : String)
    (dbNow : Nat) : List TrailerRow :=
  if ts.any (fun t => t.imdb_id == imdbId) then
    ts.map (fun t =>
      if t.imdb_id == imdbId then
        { t with acfun_url := acfunUrl, reviewer := reviewer, approved_at := dbNow }
      else t)
  else ts ++ [⟨imdbId, acfunUrl, dbNow, reviewer⟩]

/-- The errors `reviewSubmission` throws. -/
inductive ReviewError where
  /-- Message: Submission not found or already reviewed. -/
  | notFound
  /-- Failure of a statement inside the transaction; rethrown after the
  rollback. -/
  | txFailed
deriving DecidableEq, Repr

/-- Review of a submission, db.ts 317-362.  Fetch the pending submission
by id; if absent fail
NotFound without writing.  Then `BEGIN`; update the status to
approved/rejected; if approving, upsert into `trailers`; `COMMIT`.  Any
failure inside the transaction triggers `ROLLBACK` and the error is
rethrown. -/
def reviewSubmission (c : Conn) (submissionId : Nat) (approve : Bool)
    (reviewer : String) (dbNow : Nat) (fail : TxStep → Bool) :
    Except ReviewError Unit × Conn :=
  match c.committed.submissions.find?
      (fun s => s.id == submissionId && s.status == .pending) with
  | none => (.error .notFound, c)
  | some row =>
    let c0 := txBegin c
    if fail .updateStep then (.error .txFailed, txRollback c0)
    else
      let c1 := { c0 with current := { c0.current with
        submissions := updateStatus c0.current.submissions submissionId
          (if approve then .approved else .rejected) } }
      if approve then
        if fail .upsertStep then (.error .txFailed, txRollback c1)
        else
          let c2 := { c1 with current := { c1.current with
            trailers := upsertTrailer c1.current.trailers row.imdb_id
              row.acfun_url reviewer dbNow } }
          if fail .commitStep then (.error .txFailed, txRollback c2)
          else (.ok (), txCommit c2)
      else
        if fail .commitStep then (.error .txFailed, txRollback c1)
        else (.ok (), txCommit c1)

/-! ## Read paths (db.ts 367-395) -/

/-- Lookup, db.ts 389-395: the acfun_url of the trailers row with the
given imdb_id, null when absent. -/
def getAcfunUrl (db : DB) (imdbId : String) : Option String :=
  (db.trailers.find? (fun t => t.imdb_id == imdbId)).map (fun t => t.acfun_url)

/-! ## Reachable states

The committed states reachable from the empty store through the write
operations of the core. -/

inductive Op where
  | submit (now rand dbNow : Nat) (imdbId acfunUrl : String)
  | review (submissionId : Nat) (approve : Bool) (reviewer : String)
      (dbNow : Nat) (fail : TxStep → Bool)
  | addAdmin (actor newUsername newPassword : String) (dbNow : Nat)
  | bootstrap (username password : String) (dbNow : Nat)

/-- The committed database after one operation (a thrown error leaves the
committed state as it was). -/
def applyOp (db : DB) : Op → DB
  | .submit now rand dbNow imdbId acfunUrl =>
    match submitEntry db now rand dbNow imdbId acfunUrl with
    | .ok (db1, _) => db1
    | .error _ => db
  | .review sid approve reviewer dbNow fail =>
    (reviewSubmission ⟨db, db⟩ sid approve reviewer dbNow fail).2.committed
  | .addAdmin actor newU newP dbNow =>
    match addSecondaryAdmin db actor newU newP dbNow with
    | .ok db1 => db1
    | .error _ => db
  | .bootstrap u p dbNow => bootstrapAdmin db u p dbNow

/-- The committed database after a sequence of operations from the empty
store. -/
def execOps (ops : List Op) : DB := ops.foldl applyOp emptyDB

/-! ## Helper lemmas on the submission queue -/

theorem submitEntry_capacity (db : DB) (now rand dbNow : Nat) (i u : String)
    (h : 400 ≤ getPendingCount db) :
    submitEntry db now rand dbNow i u = .error .capacityExceeded := by
  simp [submitEntry, h]

/-- A successful `submitEntry` means the cap was not reached, the returned id
was fresh, and exactly one pending row carrying that id was appended. -/
theorem submitEntry_ok_shape (db : DB) (now rand dbNow : Nat) (i u : String)
    (db1 : DB) (id : Nat)
    (h : submitEntry db now rand dbNow i u = .ok (db1, id)) :
    getPendingCount db < 400 ∧
    db.submissions.any (fun s => s.id == id) = false ∧
    db1 = { db with submissions :=
      db.submissions ++ [⟨id, i, u, dbNow, .pending⟩] } := by
  rw [submitEntry] at h
  by_cases hc : 400 ≤ getPendingCount db
  · simp [hc] at h
  · refine ⟨lt_of_not_le hc, ?_⟩
    simp only [ge_iff_le, hc, if_false] at h
    rw [insertSubmission] at h
    by_cases h1 : db.submissions.any (fun s => s.id == now) = true
    · simp only [h1, if_true] at h
      rw [insertSubmission] at h
      by_cases h2 : db.submissions.any (fun s => s.id == now + rand % 1000) = true
      · simp [h2] at h
      · rw [Bool.not_eq_true] at h2
        simp only [h2, Bool.false_eq_true, if_false] at h
        obtain ⟨hdb, hid⟩ := by simpa using h
        subst hid
        exact ⟨h2, hdb.symm⟩
    · rw [Bool.not_eq_true] at h1
      simp only [h1, Bool.false_eq_true, if_false] at h
      obtain ⟨hdb, hid⟩ := by simpa using h
      subst hid
      exact ⟨h1, hdb.symm⟩

theorem getPendingCount_append_pending (db : DB) (row : Submission)
    (h : row.status = .pending) :
    getPendingCount { db with submissions := db.submissions ++ [row] } =
      getPendingCount db + 1 := by
  simp [getPendingCount, List.filter_append, h]

theorem length_filter_map_le {α : Type} (g : α → α) (p : α → Bool) (l : List α)
    (h : ∀ x, p (g x) = true → p x = true) :
    ((l.map g).filter p).length ≤ (l.filter p).length := by
  induction l with
  | nil => simp
  | cons x xs ih =>
    simp only [List.map_cons, List.filter_cons]
    by_cases hx : p (g x) = true
    · rw [if_pos hx, if_pos (h x hx)]
      simpa using ih
    · rw [Bool.not_eq_true] at hx
      rw [hx]
      simp only [Bool.false_eq_true, if_false]
      by_cases hpx : p x = true
      · rw [if_pos hpx]
        exact le_trans ih (by simp)
      · rw [Bool.not_eq_true] at hpx
        rw [hpx]
        simpa using ih

theorem updateStatus_pending_le (subs : List Submission) (sid : Nat) (st : Status)
    (hst : st ≠ .pending) :
    ((updateStatus subs sid st).filter (fun s => s.status == .pending)).length ≤
      (subs.filter (fun s => s.status == .pending)).length := by
  rw [updateStatus]
  apply length_filter_map_le
  intro s hs
  by_cases hid : (s.id == sid) = true
  · rw [if_pos hid] at hs
    simp only [beq_iff_eq] at hs
    exact absurd hs hst
  · rw [Bool.not_eq_true] at hid
    rw [hid] at hs
    simpa using hs

theorem updateStatus_map_id (subs : List Submission) (sid : Nat) (st : Status) :
    (updateStatus subs sid st).map (fun s => s.id) = subs.map (fun s => s.id) := by
  rw [updateStatus, List.map_map]
  apply List.map_congr_left
  intro s _
  by_cases hid : (s.id == sid) = true <;> simp [Function.comp, hid]

/-- Normal form of a review call on a consistent connection: NotFound when no
pending row has the id, rollback to the unchanged state on any in-transaction
failure, otherwise commit of the status update together with the conditional
publish. -/
theorem reviewSubmission_eq (db : DB) (sid : Nat) (approve : Bool)
    (reviewer : String) (dbNow : Nat) (fail : TxStep → Bool) :
    reviewSubmission ⟨db, db⟩ sid approve reviewer dbNow fail =
      match db.submissions.find? (fun s => s.id == sid && s.status == .pending) with
      | none => (.error .notFound, ⟨db, db⟩)
      | some row =>
        if fail .updateStep || (approve && fail .upsertStep) || fail .commitStep then
          (.error .txFailed, ⟨db, db⟩)
        else
          (.ok (), ⟨{ db with
              submissions := updateStatus db.submissions sid
                (if approve then .approved else .rejected),
              trailers := if approve then
                  upsertTrailer db.trailers row.imdb_id row.acfun_url reviewer dbNow
                else db.trailers },
            { db with
              submissions := updateStatus db.submissions sid
                (if approve then .approved else .rejected),
              trailers := if approve then
                  upsertTrailer db.trailers row.imdb_id row.acfun_url reviewer dbNow
                else db.trailers }⟩) := by
  rw [reviewSubmission]
  cases hf : db.submissions.find? (fun s => s.id == sid && s.status == .pending) with
  | none => rfl
  | some row =>
    cases h1 : fail .updateStep <;> cases approve <;>
      cases h2 : fail .upsertStep <;> cases h3 : fail .commitStep <;>
      simp [txBegin, txCommit, txRollback, h1, h2, h3]

theorem addSecondaryAdmin_ok (db : DB) (a u p : String) (n : Nat) (db1 : DB)
    (h : addSecondaryAdmin db a u p n = .ok db1) :
    db1 = { db with admins := db.admins ++ [⟨u, hashPassword p, "secondary", n⟩] } := by
  rw [addSecondaryAdmin] at h
  split at h
  · exact absurd h (by simp)
  · split at h
    · exact absurd h (by simp)
    · split at h
      · exact absurd h (by simp)
      · simpa using h.symm

/-- Each operation preserves the pending-count bound. -/
theorem pendingCount_applyOp (db : DB) (op : Op) (h : getPendingCount db ≤ 400) :
    getPendingCount (applyOp db op) ≤ 400 := by
  cases op with
  | submit now rand dbNow i u =>
    rw [applyOp]
    cases hs : submitEntry db now rand dbNow i u with
    | ok pr =>
      obtain ⟨db1, id⟩ := pr
      obtain ⟨hc, _, hdb1⟩ := submitEntry_ok_shape db now rand dbNow i u db1 id hs
      subst hdb1
      rw [getPendingCount_append_pending db _ rfl]
      omega
    | error e => exact h
  | review sid approve reviewer dbNow fail =>
    rw [applyOp, reviewSubmission_eq]
    cases hf : db.submissions.find? (fun s => s.id == sid && s.status == .pending) with
    | none => exact h
    | some row =>
      by_cases hfl : (fail .updateStep || (approve && fail .upsertStep)
          || fail .commitStep) = true
      · simp only [hfl, if_true]
        exact h
      · rw [Bool.not_eq_true] at hfl
        simp only [hfl, Bool.false_eq_true, if_false]
        have hst : (if approve then Status.approved else Status.rejected) ≠ Status.pending := by
          cases approve <;> simp
        have hle := updateStatus_pending_le db.submissions sid
          (if approve then Status.approved else Status.rejected) hst
        simp only [getPendingCount] at h hle ⊢
        exact le_trans hle h
  | addAdmin actor newU newP dbNow =>
    rw [applyOp]
    cases ha : addSecondaryAdmin db actor newU newP dbNow with
    | ok db1 =>
      rw [addSecondaryAdmin_ok db actor newU newP dbNow db1 ha]
      exact h
    | error e => exact h
  | bootstrap uname pwd dbNow =>
    rw [applyOp, bootstrapAdmin]
    split
    · exact h
    · exact h

/-- Each operation preserves distinctness of submission ids. -/
theorem ids_nodup_applyOp (db : DB) (op : Op)
    (h : (db.submissions.map (fun s => s.id)).Nodup) :
    ((applyOp db op).submissions.map (fun s => s.id)).Nodup := by
  cases op with
  | submit now rand dbNow i u =>
    rw [applyOp]
    cases hs : submitEntry db now rand dbNow i u with
    | ok pr =>
      obtain ⟨db1, id⟩ := pr
      obtain ⟨_, hany, hdb1⟩ := submitEntry_ok_shape db now rand dbNow i u db1 id hs
      subst hdb1
      simp only [List.map_append, List.map_cons, List.map_nil, List.nodup_append]
      refine ⟨h, List.nodup_singleton id, ?_⟩
      intro a ha hb
      simp only [List.mem_singleton] at hb
      obtain ⟨s, hsmem, hsid⟩ := List.mem_map.mp ha
      have hany2 : ∀ x ∈ db.submissions, ¬ x.id = id := by simpa using hany
      exact hany2 s hsmem (hsid.trans hb)
    | error e => exact h
  | review sid approve reviewer dbNow fail =>
    rw [applyOp, reviewSubmission_eq]
    cases hf : db.submissions.find? (fun s => s.id == sid && s.status == .pending) with
    | none => exact h
    | some row =>
      by_cases hfl : (fail .updateStep || (approve && fail .upsertStep)
          || fail .commitStep) = true
      · simp only [hfl, if_true]
        exact h
      · rw [Bool.not_eq_true] at hfl
        simp only [hfl, Bool.false_eq_true, if_false]
        rw [updateStatus_map_id]
        exact h
  | addAdmin actor newU newP dbNow =>
    rw [applyOp]
    cases ha : addSecondaryAdmin db actor newU newP dbNow with
    | ok db1 =>
      rw [addSecondaryAdmin_ok db actor newU newP dbNow db1 ha]
      exact h
    | error e => exact h
  | bootstrap uname pwd dbNow =>
    rw [applyOp, bootstrapAdmin]
    split
    · exact h
    · exact h

theorem foldl_preserves {P : DB → Prop}
    (hstep : ∀ db op, P db → P (applyOp db op)) :
    ∀ (ops : List Op) (db : DB), P db → P (ops.foldl applyOp db) := by
  intro ops
  induction ops with
  | nil => intro db h; exact h
  | cons op rest ih => intro db h; exact ih (applyOp db op) (hstep db op h)

/-! ## Helper lemmas on the moderation transaction -/

theorem find?_pending_updateStatus (subs : List Submission) (sid : Nat) (st : Status)
    (hst : st ≠ .pending) :
    (updateStatus subs sid st).find?
      (fun s => s.id == sid && s.status == .pending) = none := by
  rw [List.find?_eq_none]
  intro s hs
  rw [updateStatus] at hs
  obtain ⟨x, hx, rfl⟩ := List.mem_map.mp hs
  by_cases hid : (x.id == sid) = true
  · simp [hid, hst]
  · simp [hid]

theorem updateStatus_no_match (subs : List Submission) (sid : Nat) (st : Status)
    (h : ∀ s ∈ subs, (s.id == sid) = false) :
    updateStatus subs sid st = subs := by
  induction subs with
  | nil => rfl
  | cons x xs ih =>
    simp only [updateStatus, List.map_cons]
    rw [h x (List.mem_cons_self x xs), ]
    simp only [Bool.false_eq_true, if_false]
    have := ih (fun s hs => h s (List.mem_cons_of_mem x hs))
    rw [updateStatus] at this
    rw [this]

theorem find?_append_right {α : Type} (l1 l2 : List α) (p : α → Bool)
    (h : ∀ x ∈ l1, p x = false) :
    (l1 ++ l2).find? p = l2.find? p := by
  induction l1 with
  | nil => simp
  | cons x xs ih =>
    rw [List.cons_append, List.find?_cons_of_neg, ih]
    · exact fun y hy => h y (List.mem_cons_of_mem x hy)
    · rw [h x (List.mem_cons_self x xs)]
      simp

theorem find?_map_upsert (ts : List TrailerRow) (k u r : String) (n : Nat)
    (hany : ts.any (fun t => t.imdb_id == k) = true) :
    (ts.map (fun t => if t.imdb_id == k then
        { t with acfun_url := u, reviewer := r, approved_at := n } else t)).find?
      (fun t => t.imdb_id == k) = some ⟨k, u, n, r⟩ := by
  induction ts with
  | nil => simp at hany
  | cons t ts ih =>
    simp only [List.map_cons]
    by_cases ht : (t.imdb_id == k) = true
    · have hk : t.imdb_id = k := by simpa using ht
      rw [if_pos ht, List.find?_cons_of_pos _ (by simpa using ht)]
      simp [hk]
    · rw [Bool.not_eq_true] at ht
      rw [ht]
      simp only [Bool.false_eq_true, if_false]
      rw [List.find?_cons_of_neg _ (by simp [ht])]
      apply ih
      simp only [List.any_cons, ht, Bool.false_or] at hany
      exact hany

/-- The upsert always leaves the row for the conflicting key holding the new
url, reviewer and timestamp, and that row is the one the lookup finds. -/
theorem upsertTrailer_find? (ts : List TrailerRow) (k u r : String) (n : Nat) :
    (upsertTrailer ts k u r n).find? (fun t => t.imdb_id == k) = some ⟨k, u, n, r⟩ := by
  rw [upsertTrailer]
  by_cases hany : ts.any (fun t => t.imdb_id == k) = true
  · rw [if_pos hany]
    exact find?_map_upsert ts k u r n hany
  · rw [Bool.not_eq_true] at hany
    rw [hany]
    simp only [Bool.false_eq_true, if_false]
    rw [find?_append_right]
    · rw [List.find?_cons_of_pos _ (by simp)]
    · intro x hx
      rw [beq_eq_false_iff_ne]
      simpa using List.any_eq_false.mp hany x hx

theorem filter_key_map_upsert (ts : List TrailerRow) (k u r : String) (n : Nat) :
    (ts.map (fun t => if t.imdb_id == k then
        { t with acfun_url := u, reviewer := r, approved_at := n } else t)).filter
      (fun t => t.imdb_id == k) =
    List.replicate ((ts.filter (fun t => t.imdb_id == k)).length) ⟨k, u, n, r⟩ := by
  induction ts with
  | nil => simp
  | cons t ts ih =>
    simp only [List.map_cons, List.filter_cons]
    by_cases ht : (t.imdb_id == k) = true
    · have hk : t.imdb_id = k := by simpa using ht
      rw [if_pos ht, if_pos (by simpa using ht), if_pos ht]
      simp only [List.length_cons, List.replicate_succ, ih, hk]
    · rw [Bool.not_eq_true] at ht
      rw [ht]
      simp only [Bool.false_eq_true, if_false]
      rw [ht]
      simp only [Bool.false_eq_true, if_false]
      exact ih

theorem filter_other_map_upsert (ts : List TrailerRow) (k u r : String) (n : Nat)
    (k2 : String) (hne : k2 ≠ k) :
    (ts.map (fun t => if t.imdb_id == k then
        { t with acfun_url := u, reviewer := r, approved_at := n } else t)).filter
      (fun t => t.imdb_id == k2) = ts.filter (fun t => t.imdb_id == k2) := by
  induction ts with
  | nil => rfl
  | cons t ts ih =>
    simp only [List.map_cons, List.filter_cons]
    by_cases ht : (t.imdb_id == k) = true
    · have hk : t.imdb_id = k := by simpa using ht
      rw [if_pos ht]
      have h1 : (({ t with acfun_url := u, reviewer := r, approved_at := n } :
          TrailerRow).imdb_id == k2) = false := by
        rw [beq_eq_false_iff_ne]
        simpa [hk] using fun he => hne he.symm
      rw [h1]
      simp only [Bool.false_eq_true, if_false]
      exact ih
    · rw [Bool.not_eq_true] at ht
      rw [ht]
      simp only [Bool.false_eq_true, if_false]
      by_cases h2 : (t.imdb_id == k2) = true
      · rw [h2]
        simp only [if_true]
        rw [ih]
      · rw [Bool.not_eq_true] at h2
        rw [h2]
        simp only [Bool.false_eq_true, if_false]
        exact ih

/-! ## SubmissionQueue claims -/

/-- C2: whenever at least 400 submissions are pending, `submitEntry` fails
with CapacityExceeded and leaves the committed state untouched; consequently
every state reachable from the empty store through the write operations has
at most 400 pending submissions. -/
theorem C2_pending_capacity_bound :
    (∀ (db : DB) (now rand dbNow : Nat) (i u : String),
        400 ≤ getPendingCount db →
        submitEntry db now rand dbNow i u = .error .capacityExceeded ∧
        applyOp db (.submit now rand dbNow i u) = db) ∧
    (∀ ops : List Op, getPendingCount (execOps ops) ≤ 400) := by
  constructor
  · intro db now rand dbNow i u h
    refine ⟨submitEntry_capacity db now rand dbNow i u h, ?_⟩
    rw [applyOp, submitEntry_capacity db now rand dbNow i u h]
  · intro ops
    exact foldl_preserves pendingCount_applyOp ops emptyDB (by simp [getPendingCount, emptyDB])

set_option maxRecDepth 4000 in
/-- Closed instance of C2: with exactly 400 pending submissions, a further
submit fails with CapacityExceeded and writes nothing, and the empty history
satisfies the bound. -/
theorem C2_pending_capacity_bound_witness :
    submitEntry
        { submissions := (List.range 400).map (fun k => ⟨k, "tt", "u", 0, .pending⟩),
          trailers := [], admins := [] } 1000 0 0 "tt" "u"
      = .error .capacityExceeded ∧
    getPendingCount (execOps []) ≤ 400 :=
  ⟨(C2_pending_capacity_bound.1
      { submissions := (List.range 400).map (fun k => ⟨k, "tt", "u", 0, .pending⟩),
        trailers := [], admins := [] } 1000 0 0 "tt" "u" (by decide)).1,
   C2_pending_capacity_bound.2 []⟩

/-- C7: in every state reachable from the empty store, the persisted
submission ids are pairwise distinct (the primary key rejects a duplicate
insert, and `submitEntry` then retries once with added randomness); when the
time-based id and its randomized retry both collide with existing rows, the
bounded retry surfaces a failure rather than writing a duplicate. -/
theorem C7_submission_ids_unique :
    (∀ ops : List Op, ((execOps ops).submissions.map (fun s => s.id)).Nodup) ∧
    (∀ (db : DB) (now rand dbNow : Nat) (i u : String),
        getPendingCount db < 400 →
        db.submissions.any (fun s => s.id == now) = true →
        db.submissions.any (fun s => s.id == now + rand % 1000) = true →
        submitEntry db now rand dbNow i u = .error .retryFailed) := by
  constructor
  · intro ops
    exact foldl_preserves ids_nodup_applyOp ops emptyDB (by simp [emptyDB])
  · intro db now rand dbNow i u hcap h1 h2
    rw [submitEntry]
    simp only [ge_iff_le, not_le.mpr hcap, if_false]
    rw [insertSubmission]
    simp only [h1, if_true]
    rw [insertSubmission]
    simp only [h2, if_true]

/-- Closed instance of C7: the empty history has distinct ids, and a submit
whose generated id and randomized retry id both already exist surfaces the
bounded-retry failure. -/
theorem C7_submission_ids_unique_witness :
    ((execOps []).submissions.map (fun s => s.id)).Nodup ∧
    submitEntry
        { submissions := [⟨5, "a", "b", 0, .pending⟩, ⟨6, "c", "d", 0, .approved⟩],
          trailers := [], admins := [] } 5 1 0 "e" "f"
      = .error .retryFailed :=
  ⟨C7_submission_ids_unique.1 [],
   C7_submission_ids_unique.2
     { submissions := [⟨5, "a", "b", 0, .pending⟩, ⟨6, "c", "d", 0, .approved⟩],
       trailers := [], admins := [] } 5 1 0 "e" "f"
     (by decide) (by decide) (by decide)⟩

/-! ## ModerationTransaction claims -/

/-- C3: for a pending submission, any failure inside the review transaction
rolls the connection back to the committed state from before the call —
both tables unchanged — before the error surfaces, and a successful call
commits the status update together with the conditional publish as one
step, so a status change is never committed without its matching publish. -/
theorem C3_review_rollback_all_or_nothing :
    ∀ (db : DB) (sid : Nat) (approve : Bool) (reviewer : String) (dbNow : Nat)
      (fail : TxStep → Bool) (row : Submission),
      db.submissions.find? (fun s => s.id == sid && s.status == .pending) = some row →
      ((∃ e, (reviewSubmission ⟨db, db⟩ sid approve reviewer dbNow fail).1 = .error e) →
        (reviewSubmission ⟨db, db⟩ sid approve reviewer dbNow fail).2.committed = db) ∧
      ((reviewSubmission ⟨db, db⟩ sid approve reviewer dbNow fail).1 = .ok () →
        (reviewSubmission ⟨db, db⟩ sid approve reviewer dbNow fail).2.committed =
          { db with
            submissions := updateStatus db.submissions sid
              (if approve then .approved else .rejected),
            trailers := if approve then
                upsertTrailer db.trailers row.imdb_id row.acfun_url reviewer dbNow
              else db.trailers }) := by
  intro db sid approve reviewer dbNow fail row hf
  rw [reviewSubmission_eq, hf]
  by_cases hfl : (fail .updateStep || (approve && fail .upsertStep)
      || fail .commitStep) = true
  · simp only [hfl, if_true]
    exact ⟨fun _ => trivial, fun hok => by simp at hok⟩
  · rw [Bool.not_eq_true] at hfl
    simp only [hfl, Bool.false_eq_true, if_false]
    refine ⟨fun he => ?_, fun _ => trivial⟩
    obtain ⟨e, he⟩ := he
    simp at he

/-- Closed instance of C3: a failure at the publish upsert leaves the
committed state untouched. -/
theorem C3_review_rollback_all_or_nothing_witness :
    (reviewSubmission
        ⟨{ submissions := [⟨5, "tt", "u", 0, .pending⟩], trailers := [], admins := [] },
         { submissions := [⟨5, "tt", "u", 0, .pending⟩], trailers := [], admins := [] }⟩
        5 true "alice" 9 (fun st => st == .upsertStep)).2.committed =
      { submissions := [⟨5, "tt", "u", 0, .pending⟩], trailers := [], admins := [] } :=
  (C3_review_rollback_all_or_nothing
      { submissions := [⟨5, "tt", "u", 0, .pending⟩], trailers := [], admins := [] }
      5 true "alice" 9 (fun st => st == .upsertStep)
      ⟨5, "tt", "u", 0, .pending⟩ rfl).1 ⟨.txFailed, rfl⟩

/-- C4: a review call whose id does not name a pending submission — wrong
id, or one already decided — fails NotFound and writes nothing; in
particular a second review of an id that was just decided fails NotFound
and leaves both tables exactly as the first review left them. -/
theorem C4_review_notFound_idempotent :
    ∀ (db : DB) (sid : Nat) (approve : Bool) (reviewer : String) (dbNow : Nat)
      (fail : TxStep → Bool),
      (db.submissions.find? (fun s => s.id == sid && s.status == .pending) = none →
        reviewSubmission ⟨db, db⟩ sid approve reviewer dbNow fail =
          (.error .notFound, ⟨db, db⟩)) ∧
      (∀ c2, reviewSubmission ⟨db, db⟩ sid approve reviewer dbNow fail = (.ok (), c2) →
        ∀ (approve2 : Bool) (reviewer2 : String) (dbNow2 : Nat) (fail2 : TxStep → Bool),
          reviewSubmission ⟨c2.committed, c2.committed⟩ sid approve2 reviewer2 dbNow2 fail2 =
            (.error .notFound, ⟨c2.committed, c2.committed⟩)) := by
  intro db sid approve reviewer dbNow fail
  constructor
  · intro h
    rw [reviewSubmission_eq, h]
  · intro c2 hok approve2 reviewer2 dbNow2 fail2
    rw [reviewSubmission_eq] at hok
    cases hfind : db.submissions.find? (fun s => s.id == sid && s.status == .pending) with
    | none =>
      rw [hfind] at hok
      simp at hok
    | some row =>
      rw [hfind] at hok
      by_cases hfl : (fail .updateStep || (approve && fail .upsertStep)
          || fail .commitStep) = true
      · simp only [hfl, if_true] at hok
        simp at hok
      · rw [Bool.not_eq_true] at hfl
        simp only [hfl, Bool.false_eq_true, if_false] at hok
        injection hok with h1 h2
        subst h2
        rw [reviewSubmission_eq]
        rw [find?_pending_updateStatus db.submissions sid
          (if approve then .approved else .rejected) (by cases approve <;> simp)]

/-- Closed instance of C4: reviewing a missing id fails NotFound without
writes, and reviewing an id a second time after it was decided fails
NotFound leaving the state of the first review intact. -/
theorem C4_review_notFound_idempotent_witness :
    reviewSubmission ⟨emptyDB, emptyDB⟩ 5 true "alice" 9 (fun _ => false) =
      (.error .notFound, ⟨emptyDB, emptyDB⟩) ∧
    reviewSubmission
        ⟨{ submissions := [⟨5, "tt", "u", 0, .rejected⟩], trailers := [], admins := [] },
         { submissions := [⟨5, "tt", "u", 0, .rejected⟩], trailers := [], admins := [] }⟩
        5 false "bob" 11 (fun _ => false) =
      (.error .notFound,
        ⟨{ submissions := [⟨5, "tt", "u", 0, .rejected⟩], trailers := [], admins := [] },
         { submissions := [⟨5, "tt", "u", 0, .rejected⟩], trailers := [], admins := [] }⟩) :=
  ⟨(C4_review_notFound_idempotent emptyDB 5 true "alice" 9 (fun _ => false)).1 rfl,
   (C4_review_notFound_idempotent
      { submissions := [⟨5, "tt", "u", 0, .pending⟩], trailers := [], admins := [] }
      5 false "bob" 11 (fun _ => false)).2
     ⟨{ submissions := [⟨5, "tt", "u", 0, .rejected⟩], trailers := [], admins := [] },
      { submissions := [⟨5, "tt", "u", 0, .rejected⟩], trailers := [], admins := [] }⟩
     rfl false "bob" 11 (fun _ => false)⟩

/-- C5: the published table is keyed by source id: approving a submission
whose source id already has exactly one published row leaves exactly one
row for that key, now carrying the new url, reviewer and approval
timestamp; rows for other keys and the table size are unchanged, so no
second row for the key is ever created. -/
theorem C5_publish_upsert_unique_key :
    ∀ (db : DB) (sid : Nat) (reviewer : String) (dbNow : Nat) (fail : TxStep → Bool)
      (row : Submission) (c2 : Conn),
      db.submissions.find? (fun s => s.id == sid && s.status == .pending) = some row →
      (db.trailers.filter (fun t => t.imdb_id == row.imdb_id)).length = 1 →
      reviewSubmission ⟨db, db⟩ sid true reviewer dbNow fail = (.ok (), c2) →
      c2.committed.trailers.filter (fun t => t.imdb_id == row.imdb_id)
          = [⟨row.imdb_id, row.acfun_url, dbNow, reviewer⟩] ∧
      (∀ k2, k2 ≠ row.imdb_id →
        c2.committed.trailers.filter (fun t => t.imdb_id == k2)
          = db.trailers.filter (fun t => t.imdb_id == k2)) ∧
      c2.committed.trailers.length = db.trailers.length := by
  intro db sid reviewer dbNow fail row c2 hf hone hok
  rw [reviewSubmission_eq, hf] at hok
  by_cases hfl : (fail .updateStep || (true && fail .upsertStep)
      || fail .commitStep) = true
  · simp only [hfl, if_true] at hok
    simp at hok
  · rw [Bool.not_eq_true] at hfl
    simp only [hfl, Bool.false_eq_true, if_false, if_true] at hok
    injection hok with h1 h2
    subst h2
    have hany : db.trailers.any (fun t => t.imdb_id == row.imdb_id) = true := by
      have hpos : 0 < (db.trailers.filter (fun t => t.imdb_id == row.imdb_id)).length := by
        omega
      obtain ⟨x, hx⟩ := List.exists_mem_of_length_pos hpos
      obtain ⟨hmem, hp⟩ := List.mem_filter.mp hx
      exact List.any_eq_true.mpr ⟨x, hmem, hp⟩
    dsimp only
    rw [upsertTrailer, if_pos hany]
    refine ⟨?_, fun k2 hk2 => ?_, ?_⟩
    · rw [filter_key_map_upsert, hone]
      rfl
    · rw [filter_other_map_upsert _ _ _ _ _ _ hk2]
    · rw [List.length_map]

/-- Closed instance of C5: approving a second submission for a key that
already has a published row replaces that single row with the new url,
reviewer and timestamp, leaving other rows and the table size unchanged. -/
theorem C5_publish_upsert_unique_key_witness :
    (let db : DB :=
      { submissions := [⟨5, "k", "u2", 0, .pending⟩],
        trailers := [⟨"k", "u1", 1, "bob"⟩, ⟨"m", "w", 1, "bob"⟩], admins := [] }
     let c2 : Conn :=
      ⟨{ submissions := [⟨5, "k", "u2", 0, .approved⟩],
         trailers := [⟨"k", "u2", 9, "alice"⟩, ⟨"m", "w", 1, "bob"⟩], admins := [] },
       { submissions := [⟨5, "k", "u2", 0, .approved⟩],
         trailers := [⟨"k", "u2", 9, "alice"⟩, ⟨"m", "w", 1, "bob"⟩], admins := [] }⟩
     c2.committed.trailers.filter (fun t => t.imdb_id == "k") = [⟨"k", "u2", 9, "alice"⟩] ∧
     (∀ k2, k2 ≠ "k" →
        c2.committed.trailers.filter (fun t => t.imdb_id == k2)
          = db.trailers.filter (fun t => t.imdb_id == k2)) ∧
     c2.committed.trailers.length = db.trailers.length) :=
  (C5_publish_upsert_unique_key
      { submissions := [⟨5, "k", "u2", 0, .pending⟩],
        trailers := [⟨"k", "u1", 1, "bob"⟩, ⟨"m", "w", 1, "bob"⟩], admins := [] }
      5 "alice" 9 (fun _ => false) ⟨5, "k", "u2", 0, .pending⟩
      ⟨{ submissions := [⟨5, "k", "u2", 0, .approved⟩],
         trailers := [⟨"k", "u2", 9, "alice"⟩, ⟨"m", "w", 1, "bob"⟩], admins := [] },
       { submissions := [⟨5, "k", "u2", 0, .approved⟩],
         trailers := [⟨"k", "u2", 9, "alice"⟩, ⟨"m", "w", 1, "bob"⟩], admins := [] }⟩
      rfl rfl rfl)

/-- C6: submitting a mapping and then successfully approving the returned id
makes the lookup return exactly the submitted url, and the pending count
right after the review is one less than right before it. -/
theorem C6_submit_review_round_trip :
    ∀ (db : DB) (now rand dbNow : Nat) (i u : String) (db1 : DB) (id : Nat)
      (reviewer : String) (dbNow2 : Nat) (fail : TxStep → Bool) (c2 : Conn),
      submitEntry db now rand dbNow i u = .ok (db1, id) →
      reviewSubmission ⟨db1, db1⟩ id true reviewer dbNow2 fail = (.ok (), c2) →
      getAcfunUrl c2.committed i = some u ∧
      getPendingCount c2.committed + 1 = getPendingCount db1 := by
  intro db now rand dbNow i u db1 id reviewer dbNow2 fail c2 hsub hrev
  obtain ⟨hcap, hany, hdb1⟩ := submitEntry_ok_shape db now rand dbNow i u db1 id hsub
  have hids : ∀ s ∈ db.submissions, (s.id == id) = false := by
    intro s hs
    rw [beq_eq_false_iff_ne]
    simpa using List.any_eq_false.mp hany s hs
  have hprefix : ∀ s ∈ db.submissions,
      ((fun s => s.id == id && s.status == Status.pending) s) = false := by
    intro s hs
    simp [hids s hs]
  have hfind : db1.submissions.find? (fun s => s.id == id && s.status == Status.pending)
      = some ⟨id, i, u, dbNow, Status.pending⟩ := by
    rw [hdb1]
    dsimp only
    rw [find?_append_right _ _ _ hprefix, List.find?_cons_of_pos _ (by simp)]
  rw [reviewSubmission_eq, hfind] at hrev
  by_cases hfl : (fail .updateStep || (true && fail .upsertStep)
      || fail .commitStep) = true
  · simp only [hfl, if_true] at hrev
    simp at hrev
  · rw [Bool.not_eq_true] at hfl
    simp only [hfl, Bool.false_eq_true, if_false, if_true] at hrev
    injection hrev with h1 h2
    subst h2
    have hupd : updateStatus db1.submissions id .approved
        = db.submissions ++ [⟨id, i, u, dbNow, .approved⟩] := by
      rw [hdb1]
      dsimp only
      rw [updateStatus, List.map_append]
      have hpre := updateStatus_no_match db.submissions id .approved hids
      rw [updateStatus] at hpre
      rw [hpre]
      simp
    constructor
    · rw [getAcfunUrl]
      dsimp only
      rw [upsertTrailer_find?]
      rfl
    · dsimp only
      rw [hupd, hdb1]
      simp [getPendingCount, List.filter_append]

/-- Closed instance of C6: a fresh submit followed by an approving review
publishes exactly the submitted url and drops the pending count by one. -/
theorem C6_submit_review_round_trip_witness :
    getAcfunUrl
        { submissions := [⟨7, "tt1234567", "https://acfun.cn/v/x", 3, .approved⟩],
          trailers := [⟨"tt1234567", "https://acfun.cn/v/x", 9, "alice"⟩], admins := [] }
        "tt1234567" = some "https://acfun.cn/v/x" ∧
    getPendingCount
        { submissions := [⟨7, "tt1234567", "https://acfun.cn/v/x", 3, .approved⟩],
          trailers := [⟨"tt1234567", "https://acfun.cn/v/x", 9, "alice"⟩], admins := [] }
      + 1 =
    getPendingCount
        { submissions := [⟨7, "tt1234567", "https://acfun.cn/v/x", 3, .pending⟩],
          trailers := [], admins := [] } :=
  C6_submit_review_round_trip emptyDB 7 0 3 "tt1234567" "https://acfun.cn/v/x"
    { submissions := [⟨7, "tt1234567", "https://acfun.cn/v/x", 3, .pending⟩],
      trailers := [], admins := [] } 7 "alice" 9 (fun _ => false)
    ⟨{ submissions := [⟨7, "tt1234567", "https://acfun.cn/v/x", 3, .approved⟩],
       trailers := [⟨"tt1234567", "https://acfun.cn/v/x", 9, "alice"⟩], admins := [] },
     { submissions := [⟨7, "tt1234567", "https://acfun.cn/v/x", 3, .approved⟩],
       trailers := [⟨"tt1234567", "https://acfun.cn/v/x", 9, "alice"⟩], admins := [] }⟩
    rfl rfl

/-! ## Credential claims -/

/-- C1: the specified behaviour of `verifyAdmin` — valid password returns
`valid = true` with the stored role and canonical username — does not hold:
the source reads `row.rows[0].role` where `row` is already the fetched row,
so a matching password makes `verifyAdmin` throw a TypeError instead of
returning the role.  Concretely, with the admin table holding the single row
(alice, hashPassword pw, super), a login with the correct password throws. -/
theorem C1_verifyAdmin_throws_on_valid_login :
    verifyAdmin
      { submissions := [], trailers := [],
        admins := [⟨"alice", hashPassword "pw", "super", 0⟩] }
      "alice" "pw" = .error .typeError := by
  simp [verifyAdmin, verifyPassword, List.find?]

set_option maxRecDepth 100000 in
/-- C9: the credential hash is not salted and not adaptive: `hashPassword`
is the plain SHA-256 digest of the password alone, so it is a fixed
deterministic function — `hashPassword "pw"` is always the concrete SHA-256
digest of the two bytes `pw` — and any two calls on the same plaintext agree,
while verification of a freshly produced hash does succeed. -/
theorem C9_hashPassword_deterministic_unsalted :
    hashPassword "pw"
        = "30c952fab122c3f9759f02a6d95c3758b246b4fee239957b2d4fee46e26170c4"
      ∧ (∀ p : String, hashPassword p = hashPassword p)
      ∧ (∀ p : String, verifyPassword p (hashPassword p) = true) :=
  ⟨by decide, fun _ => rfl, fun p => by simp [verifyPassword]⟩

/-- C10: when verification does not succeed, the result observable by the
caller is identical whether the username is absent from the admin table or
present with a non-matching password: both paths return
`{ valid := false, role := none, username := none }`. -/
theorem C10_failure_results_indistinguishable :
    ∀ (db : DB) (username password : String),
      (db.admins.find? (fun a => a.username == username) = none →
        verifyAdmin db username password = .ok ⟨false, none, none⟩) ∧
      (∀ row, db.admins.find? (fun a => a.username == username) = some row →
        verifyPassword password row.password_hash = false →
        verifyAdmin db username password = .ok ⟨false, none, none⟩) := by
  intro db u p
  constructor
  · intro h
    simp [verifyAdmin, h]
  · intro row h hv
    simp [verifyAdmin, h, hv]

set_option maxRecDepth 100000 in
/-- Closed instance of C10: an unknown username and a known username with a
wrong password produce the same result object. -/
theorem C10_failure_results_indistinguishable_witness :
    verifyAdmin
        { submissions := [], trailers := [],
          admins := [⟨"alice", "storedhash", "super", 0⟩] } "bob" "pw"
      = .ok ⟨false, none, none⟩ ∧
    verifyAdmin
        { submissions := [], trailers := [],
          admins := [⟨"alice", "storedhash", "super", 0⟩] } "alice" "pw"
      = .ok ⟨false, none, none⟩ :=
  ⟨(C10_failure_results_indistinguishable _ "bob" "pw").1 (by decide),
   (C10_failure_results_indistinguishable _ "alice" "pw").2
     ⟨"alice", "storedhash", "super", 0⟩ (by decide) (by decide)⟩

/-! ## AdminDirectory claims -/

/-- C8: `addSecondaryAdmin` fails Forbidden (inserting nothing) when the
actor is absent or has a role other than super, fails Conflict (inserting
nothing) when the new username already exists, and otherwise inserts exactly
one admin row with role secondary and the hashed password. -/
theorem C8_addSecondaryAdmin_role_gated :
    ∀ (db : DB) (actor newU newP : String) (dbNow : Nat),
      (db.admins.find? (fun x => x.username == actor) = none →
        addSecondaryAdmin db actor newU newP dbNow = .error .forbidden) ∧
      (∀ a, db.admins.find? (fun x => x.username == actor) = some a →
        a.role ≠ "super" →
        addSecondaryAdmin db actor newU newP dbNow = .error .forbidden) ∧
      (∀ a, db.admins.find? (fun x => x.username == actor) = some a →
        a.role = "super" →
        db.admins.any (fun x => x.username == newU) = true →
        addSecondaryAdmin db actor newU newP dbNow = .error .conflict) ∧
      (∀ a, db.admins.find? (fun x => x.username == actor) = some a →
        a.role = "super" →
        db.admins.any (fun x => x.username == newU) = false →
        addSecondaryAdmin db actor newU newP dbNow =
          .ok { db with admins :=
            db.admins ++ [⟨newU, hashPassword newP, "secondary", dbNow⟩] }) := by
  intro db actor newU newP dbNow
  refine ⟨fun h => ?_, fun a h hr => ?_, fun a h hr hex => ?_, fun a h hr hex => ?_⟩
  · simp [addSecondaryAdmin, h]
  · simp [addSecondaryAdmin, h, bne_iff_ne, hr]
  · simp [addSecondaryAdmin, h, hr, hex]
  · simp [addSecondaryAdmin, h, hr, hex]

/-- Closed instance of C8: a secondary actor is refused, a super actor
inserts the new secondary admin row. -/
theorem C8_addSecondaryAdmin_role_gated_witness :
    addSecondaryAdmin
        { submissions := [], trailers := [],
          admins := [⟨"root", "h1", "super", 0⟩, ⟨"sec", "h2", "secondary", 1⟩] }
        "sec" "x" "y" 5 = .error .forbidden ∧
    addSecondaryAdmin
        { submissions := [], trailers := [],
          admins := [⟨"root", "h1", "super", 0⟩, ⟨"sec", "h2", "secondary", 1⟩] }
        "root" "x" "y" 5 =
      .ok { submissions := [], trailers := [],
            admins := [⟨"root", "h1", "super", 0⟩, ⟨"sec", "h2", "secondary", 1⟩,
                       ⟨"x", hashPassword "y", "secondary", 5⟩] } :=
  ⟨(C8_addSecondaryAdmin_role_gated _ "sec" "x" "y" 5).2.1
      ⟨"sec", "h2", "secondary", 1⟩ (by decide) (by decide),
   (C8_addSecondaryAdmin_role_gated _ "root" "x" "y" 5).2.2.2
      ⟨"root", "h1", "super", 0⟩ (by decide) rfl (by decide)⟩

end Trailer
